import Mathlib

/-!
Verification of the TAP (Timeline Aggregation Protocol) receiver-side manager
against its specification.  Shallow embedding of the Rust sources:
`tap_integration_tests/src/server.rs` (RPC service wrapper),
`tap_core/src/rav/request.rs` (RAVRequest),
`tap_core/src/adapters/test/rav_storage_adapter_mock.rs` (RAV storage mock).
The `tap_core` Manager itself (`verify_and_store_receipt`,
`create_rav_request`, `verify_and_store_rav`) and the RAV aggregation law are
not among the given sources; those operations are modelled from the spec
(sections 3, 4.5 and 4.6), as marked in their doc comments.

Machine integers are modelled as `Nat` with explicit `2 ^ w` bounds where
overflow matters (the u128 `value_aggregate` uses checked arithmetic in the
protocol, so overflow is an error, never a wrap).
-/

namespace TAP

/-- Error taxonomy of section 4.7 (also `tap_core::Error` as used by
`server.rs`). -/
inductive Error where
  | InvalidAllocationId
  | InvalidSignature
  | InvalidTimestamp
  | NonUniqueReceipt
  | InvalidValue
  | InsufficientEscrow
  | NoValidReceiptsForRAVRequest
  | RAVAggregationOverflow
  | InvalidReceivedRAV
  | AggregatorSignerNotAuthorized
  | StorageFailure
  | InvalidSystemTime
deriving DecidableEq, Repr

/-- Addresses (20-byte identifiers) are modelled as `Nat`. -/
abbrev Address := Nat

/-- Receipt record (section 3): allocation id, u64 timestamp in ns, u64
nonce, u128 value. -/
structure Receipt where
  allocation_id : Nat
  timestamp_ns : Nat
  nonce : Nat
  value : Nat
deriving DecidableEq, Repr

/-- An EIP-712 signed receipt.  The signature primitive is out of scope
(section 1); the signature is modelled by the address that
`recover_signer` returns for it, and `unique_hash` is modelled as the
identity on the signed message (collisions are cryptographically
negligible, spec I3 treats the hash as injective). -/
structure SignedReceipt where
  message : Receipt
  signer : Address
deriving DecidableEq, Repr

/-- Receipt Aggregate Voucher (section 3). -/
structure ReceiptAggregateVoucher where
  allocation_id : Nat
  timestamp_ns_max : Nat
  value_aggregate : Nat
deriving DecidableEq, Repr

/-- An aggregator-signed RAV, with the signature modelled by the recovered
signer address. -/
structure SignedRAV where
  message : ReceiptAggregateVoucher
  signer : Address
deriving DecidableEq, Repr

/-- Largest u128 value. -/
def U128_MAX : Nat := 2 ^ 128 - 1

/-- Checked u128 addition: `none` models Rust `checked_add` overflow. -/
def checked_add_u128 (a b : Nat) : Option Nat :=
  if a + b ≤ U128_MAX then some (a + b) else none

/-- Modelled from the spec: the RAV aggregation law of section 3
(`ReceiptAggregateVoucher::aggregate_receipts` of `tap_core` is not among
the given sources).  Given a prior RAV (possibly none) and a list of
receipts, the value aggregate is the prior value plus the sum of the
receipt values in checked u128 arithmetic (overflow is the protocol error
`RAVAggregationOverflow`), and `timestamp_ns_max` is the maximum of the
prior `timestamp_ns_max` (0 when there is no prior RAV) and the receipts'
timestamps. -/
def aggregate_receipts (allocation_id : Nat) (receipts : List Receipt)
    (previous_rav : Option ReceiptAggregateVoucher) :
    Except Error ReceiptAggregateVoucher :=
  let baseValue := match previous_rav with
    | none => 0
    | some r => r.value_aggregate
  let baseTs := match previous_rav with
    | none => 0
    | some r => r.timestamp_ns_max
  match receipts.foldl
      (fun acc s =>
        match acc with
        | Except.error e => Except.error e
        | Except.ok v =>
          match checked_add_u128 v s.value with
          | none => Except.error Error.RAVAggregationOverflow
          | some v2 => Except.ok v2)
      (Except.ok baseValue) with
  | Except.error e => Except.error e
  | Except.ok total =>
    Except.ok
      { allocation_id := allocation_id
        timestamp_ns_max := receipts.foldl (fun t s => max t s.timestamp_ns) baseTs
        value_aggregate := total }

/-- Sum of the values of a list of receipts (exact arithmetic). -/
def valueSum (receipts : List Receipt) : Nat :=
  (receipts.map Receipt.value).sum

theorem aggregate_fold_ok (receipts : List Receipt) (base : Nat)
    (h : base + valueSum receipts ≤ U128_MAX) :
    receipts.foldl
      (fun acc s =>
        match acc with
        | Except.error e => Except.error e
        | Except.ok v =>
          match checked_add_u128 v s.value with
          | none => Except.error Error.RAVAggregationOverflow
          | some v2 => Except.ok v2)
      (Except.ok base) = Except.ok (base + valueSum receipts) := by
  induction receipts generalizing base with
  | nil => simp [valueSum]
  | cons a l ih =>
    have hsum : valueSum (a :: l) = a.value + valueSum l := by
      simp [valueSum, List.map_cons, List.sum_cons]
    have hle : base + a.value ≤ U128_MAX := by omega
    have hstep : checked_add_u128 base a.value = some (base + a.value) := by
      simp [checked_add_u128, hle]
    simp only [List.foldl_cons, hstep]
    have h2 : base + a.value + valueSum l ≤ U128_MAX := by omega
    have := ih (base + a.value) h2
    rw [this]
    congr 1
    omega

theorem aggregate_fold_error (receipts : List Receipt) (e : Error) :
    receipts.foldl
      (fun acc s =>
        match acc with
        | Except.error e => Except.error e
        | Except.ok v =>
          match checked_add_u128 v s.value with
          | none => Except.error Error.RAVAggregationOverflow
          | some v2 => Except.ok v2)
      (Except.error e) = Except.error e := by
  induction receipts with
  | nil => rfl
  | cons a l ih => simpa using ih

theorem aggregate_fold_overflow (receipts : List Receipt) (base : Nat)
    (hbase : base ≤ U128_MAX) (h : U128_MAX < base + valueSum receipts) :
    receipts.foldl
      (fun acc s =>
        match acc with
        | Except.error e => Except.error e
        | Except.ok v =>
          match checked_add_u128 v s.value with
          | none => Except.error Error.RAVAggregationOverflow
          | some v2 => Except.ok v2)
      (Except.ok base) = Except.error Error.RAVAggregationOverflow := by
  induction receipts generalizing base with
  | nil => simp [valueSum] at h; omega
  | cons a l ih =>
    have hsum : valueSum (a :: l) = a.value + valueSum l := by
      simp [valueSum, List.map_cons, List.sum_cons]
    by_cases hle : base + a.value ≤ U128_MAX
    · have hstep : checked_add_u128 base a.value = some (base + a.value) := by
        simp [checked_add_u128, hle]
      simp only [List.foldl_cons, hstep]
      exact ih (base + a.value) hle (by omega)
    · have hstep : checked_add_u128 base a.value = none := by
        unfold checked_add_u128
        rw [if_neg hle]
      simp only [List.foldl_cons, hstep]
      exact aggregate_fold_error l _

theorem foldl_max_ge (l : List Receipt) (base : Nat) :
    base ≤ l.foldl (fun t s => max t s.timestamp_ns) base := by
  induction l generalizing base with
  | nil => simp
  | cons a t ih => exact le_trans (le_max_left _ _) (ih (max base a.timestamp_ns))

theorem foldl_max_mem (l : List Receipt) (base : Nat) :
    l.foldl (fun t s => max t s.timestamp_ns) base = base ∨
      ∃ s ∈ l, l.foldl (fun t s => max t s.timestamp_ns) base = s.timestamp_ns := by
  induction l generalizing base with
  | nil => left; rfl
  | cons a t ih =>
    rcases ih (max base a.timestamp_ns) with h | ⟨s, hs, heq⟩
    · by_cases hab : a.timestamp_ns ≤ base
      · left
        simp only [List.foldl_cons, h]
        omega
      · right
        exact ⟨a, List.mem_cons_self a t, by simp only [List.foldl_cons, h]; omega⟩
    · right
      exact ⟨s, List.mem_cons_of_mem a hs, by simp only [List.foldl_cons]; exact heq⟩

/-- Association-list model of the mock's `HashMap::insert` (replaces an
existing binding for the key, if any). -/
def hashMapInsert (m : List (Nat × SignedRAV)) (k : Nat) (v : SignedRAV) :
    List (Nat × SignedRAV) :=
  (k, v) :: m.filter (fun kv => !(kv.1 == k))

/-- Association-list model of the mock's `HashMap::get`. -/
def hashMapGet (m : List (Nat × SignedRAV)) (k : Nat) : Option SignedRAV :=
  (m.find? (fun kv => kv.1 == k)).map (·.2)

/-- The RAV storage mock of
`tap_core/src/adapters/test/rav_storage_adapter_mock.rs`: a map from a
`u64` id to a signed RAV, plus the next fresh id. -/
structure RAVStorageAdapterMock where
  rav_storage : List (Nat × SignedRAV)
  unique_id : Nat
deriving DecidableEq, Repr

namespace RAVStorageAdapterMock

/-- `RAVStorageAdapterMock::new`: empty storage, next id 0. -/
def new : RAVStorageAdapterMock := { rav_storage := [], unique_id := 0 }

/-- `store_rav`: inserts the RAV under the current `unique_id`, increments
`unique_id`, and returns the id used. -/
def store_rav (s : RAVStorageAdapterMock) (rav : SignedRAV) :
    RAVStorageAdapterMock × Nat :=
  ({ rav_storage := hashMapInsert s.rav_storage s.unique_id rav
     unique_id := s.unique_id + 1 },
   s.unique_id)

/-- `retrieve_rav_by_id`: looks the id up; `none` models the adapter error
for an id with no RAV. -/
def retrieve_rav_by_id (s : RAVStorageAdapterMock) (rav_id : Nat) :
    Option SignedRAV :=
  hashMapGet s.rav_storage rav_id

/-- `remove_rav_by_id`: removes the binding; `none` models the adapter
error for an id with no RAV. -/
def remove_rav_by_id (s : RAVStorageAdapterMock) (rav_id : Nat) :
    Option RAVStorageAdapterMock :=
  match hashMapGet s.rav_storage rav_id with
  | none => none
  | some _ =>
    some { s with rav_storage := s.rav_storage.filter (fun kv => !(kv.1 == rav_id)) }

end RAVStorageAdapterMock

theorem hashMapGet_insert_self (m : List (Nat × SignedRAV)) (k : Nat) (v : SignedRAV) :
    hashMapGet (hashMapInsert m k v) k = some v := by
  simp [hashMapGet, hashMapInsert, List.find?_cons]

theorem find_filter_out_ne (t : List (Nat × SignedRAV)) (k k' : Nat) (h : k' ≠ k) :
    List.find? (fun kv => kv.1 == k') (t.filter (fun kv => !(kv.1 == k))) =
      List.find? (fun kv => kv.1 == k') t := by
  induction t with
  | nil => rfl
  | cons a t ih =>
    by_cases hak : a.1 = k
    · rw [List.filter_cons_of_neg (by simp [hak]),
        List.find?_cons_of_neg t (by simp only [beq_iff_eq]; omega)]
      exact ih
    · rw [List.filter_cons_of_pos (by simp [hak])]
      by_cases hak' : a.1 = k'
      · rw [List.find?_cons_of_pos _ (by simp [hak']),
          List.find?_cons_of_pos t (by simp [hak'])]
      · rw [List.find?_cons_of_neg _ (by simp [hak']),
          List.find?_cons_of_neg t (by simp [hak'])]
        exact ih

theorem hashMapGet_insert_ne (m : List (Nat × SignedRAV)) (k k' : Nat) (v : SignedRAV)
    (h : k' ≠ k) : hashMapGet (hashMapInsert m k v) k' = hashMapGet m k' := by
  unfold hashMapGet hashMapInsert
  rw [List.find?_cons_of_neg _ (by simp only [beq_iff_eq]; omega),
    find_filter_out_ne m k k' h]

theorem foldl_max_ge_mem (l : List Receipt) :
    ∀ (base : Nat), ∀ s ∈ l,
      s.timestamp_ns ≤ l.foldl (fun t s => max t s.timestamp_ns) base := by
  induction l with
  | nil => intro base s hs; cases hs
  | cons a t ih =>
    intro base s hs
    rcases List.mem_cons.mp hs with rfl | hmem
    · exact le_trans (le_max_right base s.timestamp_ns) (foldl_max_ge t _)
    · exact ih (max base a.timestamp_ns) s hmem

/-- State tags of persisted receipts.  `Checking` and `AwaitingReserve`
(section 4.5) are transient within one `verify_and_store_receipt` call and
never persisted, so stored receipts carry `Reserved` or `Failed`. -/
inductive RState where
  | Reserved
  | Failed
deriving DecidableEq, Repr

/-- A receipt persisted in the receipt store together with its state tag. -/
structure StoredReceipt where
  receipt : SignedReceipt
  state : RState
deriving DecidableEq, Repr

/-- Lookup in a per-sender escrow table; an absent sender has balance 0. -/
def escrowGet (e : List (Address × Nat)) (a : Address) : Nat :=
  (((e.find? (fun kv => kv.1 == a)).map (·.2)).getD 0)

/-- Update of a per-sender escrow table. -/
def escrowSet (e : List (Address × Nat)) (a : Address) (v : Nat) :
    List (Address × Nat) :=
  (a, v) :: e.filter (fun kv => !(kv.1 == a))

/-- Lookup in the appraisal table keyed by the request id (section 4.6:
the value check compares the receipt value with the appraisal of the
request the receipt pays for). -/
def appraisalGet (l : List (Nat × Nat)) (k : Nat) : Option Nat :=
  (l.find? (fun kv => kv.1 == k)).map (·.2)

/-- Modelled from the spec: the receiver-side manager state (section 4.6;
`tap_core`'s `Manager` is not among the given sources).  One manager
instance serves one allocation timeline (section 5); it holds the four
storage contracts of section 4.3 (escrow store, receipt store,
single-slot latest-RAV store, allow-list and appraisal stores) and the
monotonic timestamp watermark of section 4.4. -/
structure Manager where
  allocation_id : Nat
  allocation_allowlist : List Nat
  sender_allowlist : List Address
  aggregator_allowlist : List Address
  appraisals : List (Nat × Nat)
  escrow : List (Address × Nat)
  receipts : List StoredReceipt
  rav : Option SignedRAV
  watermark : Nat
deriving DecidableEq, Repr

/-- Modelled from the spec: the ordered check pipeline of section 4.2 run
over one receipt, short-circuiting on the first failure.  Returns the
failure kind, or `none` when all checks pass. -/
def checkReceipt (m : Manager) (r : SignedReceipt) (request_id : Nat) :
    Option Error :=
  if ¬ r.message.allocation_id ∈ m.allocation_allowlist then
    some Error.InvalidAllocationId
  else if ¬ r.signer ∈ m.sender_allowlist then
    some Error.InvalidSignature
  else if ¬ m.watermark < r.message.timestamp_ns then
    some Error.InvalidTimestamp
  else if m.receipts.any (fun sr => sr.receipt == r) then
    some Error.NonUniqueReceipt
  else if ¬ appraisalGet m.appraisals request_id = some r.message.value then
    some Error.InvalidValue
  else
    none

/-- Record a receipt as `Failed` in the receipt store (failed receipts are
persisted for audit, section 4.5). -/
def recordFailed (m : Manager) (r : SignedReceipt) : Manager :=
  { m with receipts := ⟨r, RState.Failed⟩ :: m.receipts }

/-- Modelled from the spec: `verify_and_store_receipt` (section 4.6).
Drives one receipt through the state machine of section 4.5: the check
pipeline, then the atomic escrow reservation paired with storing the
receipt as `Reserved`.  On any failure the receipt is recorded `Failed`,
escrow untouched. -/
def verify_and_store_receipt (m : Manager) (r : SignedReceipt)
    (request_id : Nat) : Except Error Unit × Manager :=
  match checkReceipt m r request_id with
  | some e => (Except.error e, recordFailed m r)
  | none =>
    let bal := escrowGet m.escrow r.signer
    if r.message.value ≤ bal then
      (Except.ok (),
       { m with
         escrow := escrowSet m.escrow r.signer (bal - r.message.value)
         receipts := ⟨r, RState.Reserved⟩ :: m.receipts })
    else
      (Except.error Error.InsufficientEscrow, recordFailed m r)

/-- Insert a signed receipt into a list sorted by ascending timestamp. -/
def insertByTs (r : SignedReceipt) : List SignedReceipt → List SignedReceipt
  | [] => [r]
  | x :: xs =>
    if r.message.timestamp_ns ≤ x.message.timestamp_ns then r :: x :: xs
    else x :: insertByTs r xs

/-- Sort a list of signed receipts by ascending timestamp. -/
def sortByTs : List SignedReceipt → List SignedReceipt
  | [] => []
  | x :: xs => insertByTs x (sortByTs xs)

/-- The timestamp-window predicate for receipts eligible for a RAV request
(section 4.6): `Reserved`, at least `timestamp_buffer_ns` old, and newer
than the previous RAV when one exists. -/
def eligible (prev : Option SignedRAV) (now buffer : Nat)
    (sr : StoredReceipt) : Bool :=
  sr.state == RState.Reserved
    && decide (sr.receipt.message.timestamp_ns ≤ now - buffer)
    && (match prev with
        | none => true
        | some p => decide (p.message.timestamp_ns_max < sr.receipt.message.timestamp_ns))

/-- The `RAVRequest` struct of `tap_core/src/rav/request.rs`.  The
`invalid_receipts` field holds the `Failed` receipts of the window
(`ReceiptWithState<Failed>` in the source, modelled by the signed
receipt). -/
structure RAVRequest where
  valid_receipts : List SignedReceipt
  previous_rav : Option SignedRAV
  invalid_receipts : List SignedReceipt
  expected_rav : ReceiptAggregateVoucher
deriving DecidableEq, Repr

/-- Modelled from the spec: `create_rav_request` (section 4.6).  Gathers
the eligible `Reserved` receipts ordered by timestamp ascending, the
latest stored RAV, the `Failed` receipts of the window, and the locally
computed expected RAV per the section 3 aggregation law; fails with
`NoValidReceiptsForRAVRequest` when no receipt is eligible. -/
def create_rav_request (m : Manager) (now timestamp_buffer_ns : Nat) :
    Except Error RAVRequest :=
  let previous_rav := m.rav
  let valid := sortByTs ((m.receipts.filter (eligible m.rav now timestamp_buffer_ns)).map (·.receipt))
  let invalid := (m.receipts.filter
      (fun sr => sr.state == RState.Failed
        && decide (sr.receipt.message.timestamp_ns ≤ now - timestamp_buffer_ns))).map (·.receipt)
  if valid.isEmpty then
    Except.error Error.NoValidReceiptsForRAVRequest
  else
    match aggregate_receipts m.allocation_id (valid.map (·.message))
        (previous_rav.map (·.message)) with
    | Except.error e => Except.error e
    | Except.ok expected =>
      Except.ok
        { valid_receipts := valid
          previous_rav := previous_rav
          invalid_receipts := invalid
          expected_rav := expected }

/-- Modelled from the spec: `verify_and_store_rav` (section 4.6).
Verifies the aggregator signer is allow-listed, asserts the inner RAV
equals the expected one (failing with `InvalidReceivedRAV` and changing
no state otherwise), stores the signed RAV in the latest-RAV slot,
advances the watermark to `timestamp_ns_max` (monotonically, section
4.4), and removes the absorbed receipts. -/
def verify_and_store_rav (m : Manager) (expected : ReceiptAggregateVoucher)
    (signed : SignedRAV) : Except Error Unit × Manager :=
  if ¬ signed.signer ∈ m.aggregator_allowlist then
    (Except.error Error.AggregatorSignerNotAuthorized, m)
  else if ¬ signed.message = expected then
    (Except.error Error.InvalidReceivedRAV, m)
  else
    (Except.ok (),
     { m with
       rav := some signed
       watermark := max m.watermark signed.message.timestamp_ns_max
       receipts := m.receipts.filter
         (fun sr => !(sr.state == RState.Reserved
           && decide (sr.receipt.message.timestamp_ns ≤ signed.message.timestamp_ns_max))) })

/-- An aggregator oracle: what the remote `aggregate_receipts` JSON-RPC
method answers for a given list of receipts and previous-RAV argument
(section 6; the aggregator server is an external collaborator). -/
def Aggregator : Type :=
  List SignedReceipt → Option SignedRAV → SignedRAV

/-- The `aggregate_receipts` call parameters built by `request_rav` in
`tap_integration_tests/src/server.rs` line 169:
`rpc_params!(&rav.valid_receipts, None::<()>)` — the valid receipts and a
hard-coded `None` for the previous RAV (the request's `previous_rav`
field is not forwarded). -/
def request_rav_params (rav : RAVRequest) :
    List SignedReceipt × Option SignedRAV :=
  (rav.valid_receipts, none)

/-- The `request_rav` function of `server.rs` (lines 154-180): create the
RAV request, call the aggregator with the parameters of
`request_rav_params`, then verify and store the returned RAV.  The
manager is mutated only on full success; any error is propagated. -/
def request_rav (agg : Aggregator) (m : Manager)
    (time_stamp_buffer now : Nat) : Except Error Manager :=
  match create_rav_request m now time_stamp_buffer with
  | Except.error e => Except.error e
  | Except.ok ravreq =>
    let params := request_rav_params ravreq
    let remote := agg params.1 params.2
    match verify_and_store_rav m ravreq.expected_rav remote with
    | (Except.ok _, m2) => Except.ok m2
    | (Except.error e, _) => Except.error e

/-- Modelled from the spec: `request_rav` as the spec intends it — the
identical flow, but forwarding the request's `previous_rav` field as the
second `aggregate_receipts` argument (section 6: `aggregate_receipts(
valid_receipts, previous_rav)`; section 2: the proposed RAV aggregates
the valid receipts plus any prior RAV). -/
def request_rav_spec (agg : Aggregator) (m : Manager)
    (time_stamp_buffer now : Nat) : Except Error Manager :=
  match create_rav_request m now time_stamp_buffer with
  | Except.error e => Except.error e
  | Except.ok ravreq =>
    let remote := agg ravreq.valid_receipts ravreq.previous_rav
    match verify_and_store_rav m ravreq.expected_rav remote with
    | (Except.ok _, m2) => Except.ok m2
    | (Except.error e, _) => Except.error e

/-- The `RpcManager` state of `server.rs`: the wrapped manager, the
process-wide atomic receipt counter, and the trigger threshold.  The
counter is one field of the whole service state, not indexed by
allocation. -/
structure RpcState where
  manager : Manager
  receipt_count : Nat
  threshold : Nat
deriving DecidableEq, Repr

instance (ε α : Type) [DecidableEq ε] [DecidableEq α] :
    DecidableEq (Except ε α) := fun a b =>
  match a, b with
  | Except.ok x, Except.ok y =>
    match decEq x y with
    | isTrue h => isTrue (by rw [h])
    | isFalse h => isFalse (fun hh => h (by cases hh; rfl))
  | Except.ok _, Except.error _ => isFalse (fun hh => by cases hh)
  | Except.error _, Except.ok _ => isFalse (fun hh => by cases hh)
  | Except.error e, Except.error f =>
    match decEq e f with
    | isTrue h => isTrue (by rw [h])
    | isFalse h => isFalse (fun hh => h (by cases hh; rfl))

/-- Outcome of one `request` RPC call: the returned result, the new
service state, and two observation flags: whether
`verify_and_store_receipt` succeeded and whether a RAV request was
triggered in this call. -/
structure StepOutcome where
  result : Except Error Unit
  state : RpcState
  verified : Bool
  triggered : Bool
deriving DecidableEq, Repr

/-- The `request` method of `server.rs` (lines 103-151): verify and store
the receipt; on success increment the receipt counter, and when it has
reached the threshold, reset it to zero and issue a RAV request with
`time_stamp_buffer = 0`, propagating a RAV-request failure to the caller;
on receipt failure return the error (the threshold logic is skipped). -/
def request (agg : Aggregator) (now : Nat) (s : RpcState)
    (request_id : Nat) (receipt : SignedReceipt) : StepOutcome :=
  let vr := verify_and_store_receipt s.manager receipt request_id
  match vr.1 with
  | Except.error e =>
    { result := Except.error e
      state := { s with manager := vr.2 }
      verified := false
      triggered := false }
  | Except.ok _ =>
    let count := s.receipt_count + 1
    if s.threshold ≤ count then
      let s2 : RpcState :=
        { manager := vr.2, receipt_count := 0, threshold := s.threshold }
      match request_rav agg vr.2 0 now with
      | Except.ok m2 =>
        { result := Except.ok ()
          state := { s2 with manager := m2 }
          verified := true
          triggered := true }
      | Except.error e =>
        { result := Except.error e
          state := s2
          verified := true
          triggered := true }
    else
      { result := Except.ok ()
        state := { manager := vr.2, receipt_count := count, threshold := s.threshold }
        verified := true
        triggered := false }

/-- Per-call log entry used to state counter properties of a run:
whether `verify_and_store_receipt` succeeded, whether a RAV request was
triggered, and the counter value before and after the call. -/
structure StepLog where
  ok : Bool
  triggered : Bool
  countBefore : Nat
  countAfter : Nat
deriving DecidableEq, Repr

/-- Run a sequence of `request` calls, returning the final state and the
per-call log. -/
def runRequests (agg : Aggregator) (now : Nat) :
    RpcState → List (Nat × SignedReceipt) → RpcState × List StepLog
  | s, [] => (s, [])
  | s, (id, r) :: rest =>
    let st := request agg now s id r
    let log : StepLog :=
      { ok := st.verified
        triggered := st.triggered
        countBefore := s.receipt_count
        countAfter := st.state.receipt_count }
    let tail := runRequests agg now st.state rest
    (tail.1, log :: tail.2)

/-- The `get_current_timestamp_u64_ns` function of `server.rs` (lines
222-230): `SystemTime::now().duration_since(UNIX_EPOCH)` fails exactly
when the clock is before the Unix epoch, mapped to `InvalidSystemTime`;
the nanosecond count (a u128) is cast `as u64`, which truncates modulo
`2 ^ 64`.  The clock is modelled as signed nanoseconds relative to the
epoch. -/
def get_current_timestamp_u64_ns (clock_ns : Int) : Except Error Nat :=
  if clock_ns < 0 then Except.error Error.InvalidSystemTime
  else Except.ok (clock_ns.toNat % 2 ^ 64)

/-- The `RpcManager::new` constructor of `server.rs` (lines 67-94): the
manager is built with `get_current_timestamp_u64_ns().unwrap()` as its
starting watermark and the counter starts at 0.  The `unwrap` panics on
error, so construction does not proceed: modelled by `none`.  `base`
carries the injected adapters (allow-lists, appraisals, escrow,
stores). -/
def RpcManager.new (clock_ns : Int) (base : Manager) (threshold : Nat) :
    Option RpcState :=
  match get_current_timestamp_u64_ns clock_ns with
  | Except.error _ => none
  | Except.ok ts =>
    some { manager := { base with watermark := ts }
           receipt_count := 0
           threshold := threshold }

theorem mem_insertByTs (a r : SignedReceipt) (l : List SignedReceipt) :
    a ∈ insertByTs r l ↔ a = r ∨ a ∈ l := by
  induction l with
  | nil => simp [insertByTs]
  | cons x xs ih =>
    unfold insertByTs
    by_cases h : r.message.timestamp_ns ≤ x.message.timestamp_ns
    · simp [h]
    · simp only [if_neg h, List.mem_cons, ih]
      tauto

theorem mem_sortByTs (a : SignedReceipt) (l : List SignedReceipt) :
    a ∈ sortByTs l ↔ a ∈ l := by
  induction l with
  | nil => simp [sortByTs]
  | cons x xs ih =>
    unfold sortByTs
    rw [mem_insertByTs, ih, List.mem_cons]

theorem insertByTs_ne_nil (r : SignedReceipt) (l : List SignedReceipt) :
    insertByTs r l ≠ [] := by
  cases l with
  | nil => simp [insertByTs]
  | cons x xs =>
    unfold insertByTs
    by_cases h : r.message.timestamp_ns ≤ x.message.timestamp_ns <;> simp [h]

theorem sortByTs_eq_nil_iff (l : List SignedReceipt) :
    sortByTs l = [] ↔ l = [] := by
  cases l with
  | nil => simp [sortByTs]
  | cons x xs =>
    unfold sortByTs
    simpa using insertByTs_ne_nil x (sortByTs xs)

theorem sorted_insertByTs (r : SignedReceipt) (l : List SignedReceipt)
    (h : l.Pairwise (fun a b => a.message.timestamp_ns ≤ b.message.timestamp_ns)) :
    (insertByTs r l).Pairwise (fun a b => a.message.timestamp_ns ≤ b.message.timestamp_ns) := by
  induction l with
  | nil => simp [insertByTs]
  | cons x xs ih =>
    rcases List.pairwise_cons.mp h with ⟨hx, hxs⟩
    unfold insertByTs
    by_cases hle : r.message.timestamp_ns ≤ x.message.timestamp_ns
    · rw [if_pos hle]
      refine List.pairwise_cons.mpr ⟨?_, h⟩
      intro b hb
      rcases List.mem_cons.mp hb with rfl | hmem
      · exact hle
      · exact le_trans hle (hx b hmem)
    · rw [if_neg hle]
      refine List.pairwise_cons.mpr ⟨?_, ih hxs⟩
      intro b hb
      rcases (mem_insertByTs b r xs).mp hb with rfl | hmem
      · omega
      · exact hx b hmem

theorem sorted_sortByTs (l : List SignedReceipt) :
    (sortByTs l).Pairwise (fun a b => a.message.timestamp_ns ≤ b.message.timestamp_ns) := by
  induction l with
  | nil => simp [sortByTs]
  | cons x xs ih => exact sorted_insertByTs x (sortByTs xs) ih

theorem checkReceipt_none_inv (m : Manager) (r : SignedReceipt) (request_id : Nat)
    (h : checkReceipt m r request_id = none) :
    r.message.allocation_id ∈ m.allocation_allowlist ∧
      r.signer ∈ m.sender_allowlist ∧
      m.watermark < r.message.timestamp_ns ∧
      m.receipts.any (fun sr => sr.receipt == r) = false ∧
      appraisalGet m.appraisals request_id = some r.message.value := by
  unfold checkReceipt at h
  split_ifs at h with h1 h2 h3 h4 h5
  exact ⟨h1, h2, h3, by simpa using h4, h5⟩

theorem verify_ok_inv (m : Manager) (r : SignedReceipt) (request_id : Nat)
    (h : (verify_and_store_receipt m r request_id).1 = Except.ok ()) :
    checkReceipt m r request_id = none ∧
      r.message.value ≤ escrowGet m.escrow r.signer ∧
      (verify_and_store_receipt m r request_id).2 =
        { m with
          escrow := escrowSet m.escrow r.signer
            (escrowGet m.escrow r.signer - r.message.value)
          receipts := ⟨r, RState.Reserved⟩ :: m.receipts } := by
  have hsplit : checkReceipt m r request_id = none ∨
      ∃ e, checkReceipt m r request_id = some e := by
    cases checkReceipt m r request_id
    · exact Or.inl rfl
    · exact Or.inr ⟨_, rfl⟩
  rcases hsplit with hc | ⟨e, hc⟩
  · unfold verify_and_store_receipt at h ⊢
    rw [hc] at h ⊢
    dsimp only at h ⊢
    by_cases hbal : r.message.value ≤ escrowGet m.escrow r.signer
    · rw [if_pos hbal]
      exact ⟨rfl, hbal, rfl⟩
    · rw [if_neg hbal] at h
      simp at h
  · unfold verify_and_store_receipt at h
    rw [hc] at h
    simp at h

theorem verify_error_inv (m : Manager) (r : SignedReceipt) (request_id : Nat)
    (e : Error) (h : (verify_and_store_receipt m r request_id).1 = Except.error e) :
    (verify_and_store_receipt m r request_id).2 = recordFailed m r := by
  have hsplit : checkReceipt m r request_id = none ∨
      ∃ e', checkReceipt m r request_id = some e' := by
    cases checkReceipt m r request_id
    · exact Or.inl rfl
    · exact Or.inr ⟨_, rfl⟩
  rcases hsplit with hc | ⟨e', hc⟩
  · unfold verify_and_store_receipt at h ⊢
    rw [hc] at h ⊢
    dsimp only at h ⊢
    by_cases hbal : r.message.value ≤ escrowGet m.escrow r.signer
    · rw [if_pos hbal] at h
      simp at h
    · rw [if_neg hbal]
  · unfold verify_and_store_receipt at h ⊢
    rw [hc] at h ⊢

theorem escrowGet_set_self (e : List (Address × Nat)) (a : Address) (v : Nat) :
    escrowGet (escrowSet e a v) a = v := by
  unfold escrowGet escrowSet
  rw [List.find?_cons_of_pos _ (by simp)]
  rfl

theorem filter_receipt_nil (l : List StoredReceipt) (r : SignedReceipt)
    (h : l.any (fun sr => sr.receipt == r) = false) :
    l.filter (fun sr => sr.receipt == r && sr.state == RState.Reserved) = [] := by
  induction l with
  | nil => rfl
  | cons x xs ih =>
    rw [List.any_cons, Bool.or_eq_false_iff] at h
    rw [List.filter_cons_of_neg (by simp [h.1]), ih h.2]

/-- Claim C7: whenever `verify_and_store_receipt` returns an error (any
per-receipt rejection, `InsufficientEscrow` included), the sender's
escrow is unchanged, no `Reserved` record is created (every `Reserved`
record afterwards was already present), the receipt is recorded as
`Failed`, and the RAV slot and watermark are unchanged. -/
theorem tap_c7_receipt_error_no_state_change (m : Manager) (r : SignedReceipt)
    (request_id : Nat) (e : Error)
    (h : (verify_and_store_receipt m r request_id).1 = Except.error e) :
    (verify_and_store_receipt m r request_id).2.escrow = m.escrow ∧
      (verify_and_store_receipt m r request_id).2.receipts
        = ⟨r, RState.Failed⟩ :: m.receipts ∧
      (∀ sr ∈ (verify_and_store_receipt m r request_id).2.receipts,
        sr.state = RState.Reserved → sr ∈ m.receipts) ∧
      (verify_and_store_receipt m r request_id).2.rav = m.rav ∧
      (verify_and_store_receipt m r request_id).2.watermark = m.watermark := by
  have h2 := verify_error_inv m r request_id e h
  rw [h2]
  unfold recordFailed
  refine ⟨rfl, rfl, ?_, rfl, rfl⟩
  intro sr hmem hres
  rcases List.mem_cons.mp hmem with rfl | hmem
  · cases hres
  · exact hmem

/-- Manager of the spec's under-escrowed scenario: sender 5 has escrow
10, the appraisal of request 0 is 20. -/
def w7Manager : Manager :=
  { allocation_id := 1
    allocation_allowlist := [1]
    sender_allowlist := [5]
    aggregator_allowlist := [9]
    appraisals := [(0, 20)]
    escrow := [(5, 10)]
    receipts := []
    rav := none
    watermark := 0 }

/-- A signed receipt of value 20 for allocation 1 from sender 5. -/
def w7Receipt : SignedReceipt :=
  { message := { allocation_id := 1, timestamp_ns := 1000000000, nonce := 1, value := 20 }
    signer := 5 }

/-- Witness for C7: the under-escrowed scenario fails with
`InsufficientEscrow`, leaving escrow and every other field unchanged and
recording the receipt as `Failed`. -/
theorem tap_c7_witness :
    (verify_and_store_receipt w7Manager w7Receipt 0).1
        = Except.error Error.InsufficientEscrow ∧
      (verify_and_store_receipt w7Manager w7Receipt 0).2.escrow = w7Manager.escrow ∧
      (verify_and_store_receipt w7Manager w7Receipt 0).2.receipts
        = ⟨w7Receipt, RState.Failed⟩ :: w7Manager.receipts :=
  ⟨by decide,
   (tap_c7_receipt_error_no_state_change w7Manager w7Receipt 0
     Error.InsufficientEscrow (by decide)).1,
   (tap_c7_receipt_error_no_state_change w7Manager w7Receipt 0
     Error.InsufficientEscrow (by decide)).2.1⟩

/-- Claim C8: submitting the same signed receipt twice yields exactly one
`Reserved` record and one escrow debit: given the first call succeeded,
the second call returns `NonUniqueReceipt`, the escrow table is exactly
the one after the first call (debited once by the receipt's value), and
exactly one `Reserved` record for the receipt exists. -/
theorem tap_c8_replay_second_rejected (m : Manager) (r : SignedReceipt)
    (request_id : Nat)
    (h : (verify_and_store_receipt m r request_id).1 = Except.ok ()) :
    (verify_and_store_receipt (verify_and_store_receipt m r request_id).2 r request_id).1
        = Except.error Error.NonUniqueReceipt ∧
      (verify_and_store_receipt (verify_and_store_receipt m r request_id).2 r request_id).2.escrow
        = (verify_and_store_receipt m r request_id).2.escrow ∧
      escrowGet
          (verify_and_store_receipt (verify_and_store_receipt m r request_id).2 r request_id).2.escrow
          r.signer
        = escrowGet m.escrow r.signer - r.message.value ∧
      ((verify_and_store_receipt (verify_and_store_receipt m r request_id).2 r request_id).2.receipts.filter
          (fun sr => sr.receipt == r && sr.state == RState.Reserved)).length = 1 := by
  obtain ⟨hc, hbal, hm1⟩ := verify_ok_inv m r request_id h
  obtain ⟨ha1, ha2, ha3, ha4, ha5⟩ := checkReceipt_none_inv m r request_id hc
  rw [hm1]
  have hcheck2 : checkReceipt
      { m with
        escrow := escrowSet m.escrow r.signer
          (escrowGet m.escrow r.signer - r.message.value)
        receipts := ⟨r, RState.Reserved⟩ :: m.receipts } r request_id
      = some Error.NonUniqueReceipt := by
    unfold checkReceipt
    rw [if_neg (by simp [ha1]), if_neg (by simp [ha2]), if_neg (by simp [ha3]),
      if_pos (by simp)]
  unfold verify_and_store_receipt
  rw [hcheck2]
  dsimp only [recordFailed]
  refine ⟨rfl, rfl, escrowGet_set_self m.escrow r.signer _, ?_⟩
  rw [List.filter_cons_of_neg (by simp), List.filter_cons_of_pos (by simp),
    filter_receipt_nil m.receipts r ha4]
  rfl

/-- Manager of the spec's happy-path scenario: sender 5 has escrow 520,
the appraisal of request 0 is 20. -/
def w8Manager : Manager :=
  { allocation_id := 1
    allocation_allowlist := [1]
    sender_allowlist := [5]
    aggregator_allowlist := [9]
    appraisals := [(0, 20)]
    escrow := [(5, 520)]
    receipts := []
    rav := none
    watermark := 0 }

/-- Witness for C8: the replay scenario of the spec — escrow 520, one
receipt of value 20 submitted twice; the escrow ends at 500 and exactly
one `Reserved` record exists. -/
theorem tap_c8_witness :
    (verify_and_store_receipt w8Manager w7Receipt 0).1 = Except.ok () ∧
      ((verify_and_store_receipt (verify_and_store_receipt w8Manager w7Receipt 0).2 w7Receipt 0).1
          = Except.error Error.NonUniqueReceipt ∧
        (verify_and_store_receipt (verify_and_store_receipt w8Manager w7Receipt 0).2 w7Receipt 0).2.escrow
          = (verify_and_store_receipt w8Manager w7Receipt 0).2.escrow ∧
        escrowGet
            (verify_and_store_receipt (verify_and_store_receipt w8Manager w7Receipt 0).2 w7Receipt 0).2.escrow
            w7Receipt.signer
          = escrowGet w8Manager.escrow w7Receipt.signer - w7Receipt.message.value ∧
        ((verify_and_store_receipt (verify_and_store_receipt w8Manager w7Receipt 0).2 w7Receipt 0).2.receipts.filter
            (fun sr => sr.receipt == w7Receipt && sr.state == RState.Reserved)).length = 1) :=
  ⟨by decide, tap_c8_replay_second_rejected w8Manager w7Receipt 0 (by decide)⟩

/-- Value aggregate of a prior RAV, 0 for the empty prior RAV. -/
def prevValue : Option ReceiptAggregateVoucher → Nat
  | none => 0
  | some r => r.value_aggregate

/-- Timestamp upper bound of a prior RAV, 0 for the empty prior RAV. -/
def prevTsMax : Option ReceiptAggregateVoucher → Nat
  | none => 0
  | some r => r.timestamp_ns_max

/-- Claim C2: for every prior RAV (possibly empty) and receipt set sharing its
allocation with timestamps above its upper bound, the aggregate's
`value_aggregate` is the prior value plus the exact sum of the receipt
values when that sum fits in u128, and the aggregation reports
`RAVAggregationOverflow` (no wrapping) when it does not; the aggregate's
`timestamp_ns_max` is the maximum of the prior `timestamp_ns_max` and the
receipts' timestamps (an upper bound on all of them, attained by one of
them). -/
theorem tap_c2_aggregation_law (alloc : Nat)
    (prev : Option ReceiptAggregateVoucher) (S : List Receipt)
    (halloc : ∀ s ∈ S, ∀ p, prev = some p → s.allocation_id = p.allocation_id)
    (hts : ∀ s ∈ S, ∀ p, prev = some p → p.timestamp_ns_max < s.timestamp_ns)
    (hbase : prevValue prev ≤ U128_MAX) :
    (prevValue prev + valueSum S ≤ U128_MAX →
      ∃ out, aggregate_receipts alloc S prev = Except.ok out ∧
        out.value_aggregate = prevValue prev + valueSum S ∧
        out.allocation_id = alloc ∧
        prevTsMax prev ≤ out.timestamp_ns_max ∧
        (∀ s ∈ S, s.timestamp_ns ≤ out.timestamp_ns_max) ∧
        (out.timestamp_ns_max = prevTsMax prev ∨
          ∃ s ∈ S, out.timestamp_ns_max = s.timestamp_ns)) ∧
    (U128_MAX < prevValue prev + valueSum S →
      aggregate_receipts alloc S prev = Except.error Error.RAVAggregationOverflow) := by
  constructor
  · intro hle
    have hfold := aggregate_fold_ok S (prevValue prev) hle
    have heq : aggregate_receipts alloc S prev =
        Except.ok
          { allocation_id := alloc
            timestamp_ns_max := S.foldl (fun t s => max t s.timestamp_ns) (prevTsMax prev)
            value_aggregate := prevValue prev + valueSum S } := by
      unfold aggregate_receipts
      cases prev with
      | none =>
        dsimp only [prevValue] at hfold
        dsimp only [prevValue, prevTsMax]
        rw [hfold]
      | some p =>
        dsimp only [prevValue] at hfold
        dsimp only [prevValue, prevTsMax]
        rw [hfold]
    refine ⟨_, heq, rfl, rfl, foldl_max_ge S (prevTsMax prev),
      fun s hs => foldl_max_ge_mem S (prevTsMax prev) s hs, ?_⟩
    rcases foldl_max_mem S (prevTsMax prev) with hcase | ⟨s, hs, hcase⟩
    · exact Or.inl hcase
    · exact Or.inr ⟨s, hs, hcase⟩
  · intro hgt
    have hfold := aggregate_fold_overflow S (prevValue prev) hbase hgt
    unfold aggregate_receipts
    cases prev with
    | none =>
      dsimp only [prevValue] at hfold
      dsimp only
      rw [hfold]
    | some p =>
      dsimp only [prevValue] at hfold
      dsimp only
      rw [hfold]

/-- Prior RAV used by the C2 witness: allocation 1, upper timestamp 5,
value 20. -/
def w2Prev : ReceiptAggregateVoucher :=
  { allocation_id := 1, timestamp_ns_max := 5, value_aggregate := 20 }

/-- Receipts used by the C2 witness: two receipts of allocation 1 with
timestamps 10 and 8, values 7 and 3. -/
def w2S : List Receipt :=
  [{ allocation_id := 1, timestamp_ns := 10, nonce := 0, value := 7 },
   { allocation_id := 1, timestamp_ns := 8, nonce := 1, value := 3 }]

/-- Witness for C2: at the concrete prior RAV and receipts, the
hypotheses hold, the aggregate evaluates to value 30 and timestamp 10,
and the aggregation-law conclusions follow by the theorem. -/
theorem tap_c2_witness :
    (∀ s ∈ w2S, ∀ p, some w2Prev = some p → s.allocation_id = p.allocation_id) ∧
      (∀ s ∈ w2S, ∀ p, some w2Prev = some p → p.timestamp_ns_max < s.timestamp_ns) ∧
      prevValue (some w2Prev) ≤ U128_MAX ∧
      aggregate_receipts 1 w2S (some w2Prev) =
        Except.ok { allocation_id := 1, timestamp_ns_max := 10, value_aggregate := 30 } ∧
      ((prevValue (some w2Prev) + valueSum w2S ≤ U128_MAX →
        ∃ out, aggregate_receipts 1 w2S (some w2Prev) = Except.ok out ∧
          out.value_aggregate = prevValue (some w2Prev) + valueSum w2S ∧
          out.allocation_id = 1 ∧
          prevTsMax (some w2Prev) ≤ out.timestamp_ns_max ∧
          (∀ s ∈ w2S, s.timestamp_ns ≤ out.timestamp_ns_max) ∧
          (out.timestamp_ns_max = prevTsMax (some w2Prev) ∨
            ∃ s ∈ w2S, out.timestamp_ns_max = s.timestamp_ns)) ∧
       (U128_MAX < prevValue (some w2Prev) + valueSum w2S →
        aggregate_receipts 1 w2S (some w2Prev) =
          Except.error Error.RAVAggregationOverflow)) :=
  ⟨by decide, by decide, by decide, by decide,
   tap_c2_aggregation_law 1 (some w2Prev) w2S (by decide) (by decide) (by decide)⟩

/-- Claim C6: for a mismatching aggregator RAV (authorized signer, inner RAV
different from the expected one), `verify_and_store_rav` fails with
`InvalidReceivedRAV` and makes no state change: the whole manager state —
watermark, RAV slot, and receipt store (so every `Reserved` receipt stays
`Reserved`) — is returned unchanged. -/
theorem tap_c6_rav_mismatch_no_state_change (m : Manager)
    (expected : ReceiptAggregateVoucher) (signed : SignedRAV)
    (hsig : signed.signer ∈ m.aggregator_allowlist)
    (hne : signed.message ≠ expected) :
    verify_and_store_rav m expected signed
        = (Except.error Error.InvalidReceivedRAV, m) ∧
      (verify_and_store_rav m expected signed).2.watermark = m.watermark ∧
      (verify_and_store_rav m expected signed).2.rav = m.rav ∧
      (verify_and_store_rav m expected signed).2.receipts = m.receipts := by
  have hmain : verify_and_store_rav m expected signed
      = (Except.error Error.InvalidReceivedRAV, m) := by
    unfold verify_and_store_rav
    rw [if_neg (not_not_intro hsig), if_pos hne]
  exact ⟨hmain, by rw [hmain], by rw [hmain], by rw [hmain]⟩

/-- Expected RAV of the spec's tampering scenario: value 20. -/
def w6Expected : ReceiptAggregateVoucher :=
  { allocation_id := 1, timestamp_ns_max := 1000000000, value_aggregate := 20 }

/-- Tampered aggregator RAV of the spec's tampering scenario: value 21,
signed by the allow-listed aggregator 9. -/
def w6Signed : SignedRAV :=
  { message := { allocation_id := 1, timestamp_ns_max := 1000000000, value_aggregate := 21 }
    signer := 9 }

/-- Witness for C6: the tampering scenario (aggregator returns value 21
instead of 20) fails with `InvalidReceivedRAV` and returns the manager
unchanged. -/
theorem tap_c6_witness :
    w6Signed.signer ∈ w8Manager.aggregator_allowlist ∧
      w6Signed.message ≠ w6Expected ∧
      verify_and_store_rav w8Manager w6Expected w6Signed
        = (Except.error Error.InvalidReceivedRAV, w8Manager) :=
  ⟨by decide, by decide,
   (tap_c6_rav_mismatch_no_state_change w8Manager w6Expected w6Signed
     (by decide) (by decide)).1⟩

/-- The single-slot-per-allocation property C3 asserts of the RAV store:
any two retained RAVs of the same allocation sit in the same slot. -/
def atMostOneRavPerAllocation (s : RAVStorageAdapterMock) : Prop :=
  ∀ id1 id2 r1 r2,
    s.retrieve_rav_by_id id1 = some r1 →
    s.retrieve_rav_by_id id2 = some r2 →
    r1.message.allocation_id = r2.message.allocation_id →
    id1 = id2

/-- First RAV stored in the C3 scenario: allocation 1, window up to 10. -/
def c3Rav1 : SignedRAV :=
  { message := { allocation_id := 1, timestamp_ns_max := 10, value_aggregate := 20 }
    signer := 9 }

/-- Successor RAV of the same allocation 1, window up to 20. -/
def c3Rav2 : SignedRAV :=
  { message := { allocation_id := 1, timestamp_ns_max := 20, value_aggregate := 45 }
    signer := 9 }

/-- Mock RAV store after storing `c3Rav1` from fresh. -/
def c3S1 : RAVStorageAdapterMock :=
  (RAVStorageAdapterMock.new.store_rav c3Rav1).1

/-- Mock RAV store after storing `c3Rav1` and then `c3Rav2`. -/
def c3Store : RAVStorageAdapterMock :=
  (c3S1.store_rav c3Rav2).1

/-- Counterexample to C3: after storing two RAVs of the same allocation,
the mock store retains both — under ids 0 and 1 — so the second store did
not replace the first and the store is not single-slot per allocation. -/
theorem tap_c3_counterexample :
    c3Store.retrieve_rav_by_id 0 = some c3Rav1 ∧
      c3Store.retrieve_rav_by_id 1 = some c3Rav2 ∧
      c3Rav1.message.allocation_id = c3Rav2.message.allocation_id ∧
      ¬ atMostOneRavPerAllocation c3Store := by
  refine ⟨by decide, by decide, by decide, fun hmono => ?_⟩
  have h01 := hmono 0 1 c3Rav1 c3Rav2 (by decide) (by decide) (by decide)
  exact absurd h01 (by decide)

/-- Claim C3 amended: the mock RAV store is keyed by a monotonically increasing
unique id, not by allocation — `store_rav` files the RAV under the fresh
id `unique_id`, increments `unique_id`, and leaves every other id's
binding (in particular earlier RAVs of the same allocation) untouched;
the stored RAV is retrieved by that id. -/
theorem tap_c3_store_is_append_by_id (s : RAVStorageAdapterMock) (rav : SignedRAV) :
    (s.store_rav rav).2 = s.unique_id ∧
      ((s.store_rav rav).1).unique_id = s.unique_id + 1 ∧
      ((s.store_rav rav).1).retrieve_rav_by_id s.unique_id = some rav ∧
      (∀ k, k ≠ s.unique_id →
        ((s.store_rav rav).1).retrieve_rav_by_id k = s.retrieve_rav_by_id k) := by
  refine ⟨rfl, rfl, ?_, ?_⟩
  · show hashMapGet (hashMapInsert s.rav_storage s.unique_id rav) s.unique_id = some rav
    exact hashMapGet_insert_self s.rav_storage s.unique_id rav
  · intro k hk
    show hashMapGet (hashMapInsert s.rav_storage s.unique_id rav) k
      = hashMapGet s.rav_storage k
    exact hashMapGet_insert_ne s.rav_storage s.unique_id k rav hk

/-- Witness for the amended C3: storing `c3Rav2` into the one-element
store leaves the binding of id 0 (the earlier RAV of the same allocation)
untouched. -/
theorem tap_c3_witness :
    (0 : Nat) ≠ c3S1.unique_id ∧
      ((c3S1.store_rav c3Rav2).1).retrieve_rav_by_id 0 = c3S1.retrieve_rav_by_id 0 :=
  ⟨by decide, (tap_c3_store_is_append_by_id c3S1 c3Rav2).2.2.2 0 (by decide)⟩

/-- Claim C9: reading the current time at startup fails with
`InvalidSystemTime` exactly when the clock is before the Unix epoch, and
such a failure is fatal — `RpcManager::new` does not produce a manager;
with a non-negative clock, construction proceeds with the truncated
nanosecond timestamp as the starting watermark. -/
theorem tap_c9_invalid_system_time_fatal (clock_ns : Int) (base : Manager)
    (threshold : Nat) :
    (get_current_timestamp_u64_ns clock_ns
        = Except.error Error.InvalidSystemTime ↔ clock_ns < 0) ∧
      (clock_ns < 0 → RpcManager.new clock_ns base threshold = none) ∧
      (0 ≤ clock_ns → RpcManager.new clock_ns base threshold =
        some { manager := { base with watermark := clock_ns.toNat % 2 ^ 64 }
               receipt_count := 0
               threshold := threshold }) := by
  by_cases h : clock_ns < 0 <;>
    simp [get_current_timestamp_u64_ns, RpcManager.new, h]

/-- Witness for C9: with the clock 5 ns before the epoch, reading the
time yields `InvalidSystemTime` and `RpcManager::new` fails. -/
theorem tap_c9_witness :
    ((-5 : Int) < 0) ∧
      get_current_timestamp_u64_ns (-5) = Except.error Error.InvalidSystemTime ∧
      RpcManager.new (-5) w8Manager 4 = none :=
  ⟨by decide, by decide,
   (tap_c9_invalid_system_time_fatal (-5) w8Manager 4).2.1 (by decide)⟩

theorem aggregate_fold_ok_or_overflow (receipts : List Receipt) (base : Nat) :
    (∃ v, receipts.foldl
      (fun acc s =>
        match acc with
        | Except.error e => Except.error e
        | Except.ok v =>
          match checked_add_u128 v s.value with
          | none => Except.error Error.RAVAggregationOverflow
          | some v2 => Except.ok v2)
      (Except.ok base) = Except.ok v) ∨
    receipts.foldl
      (fun acc s =>
        match acc with
        | Except.error e => Except.error e
        | Except.ok v =>
          match checked_add_u128 v s.value with
          | none => Except.error Error.RAVAggregationOverflow
          | some v2 => Except.ok v2)
      (Except.ok base) = Except.error Error.RAVAggregationOverflow := by
  induction receipts generalizing base with
  | nil => exact Or.inl ⟨base, rfl⟩
  | cons a l ih =>
    cases hadd : checked_add_u128 base a.value with
    | some v =>
      simp only [List.foldl_cons, hadd]
      exact ih v
    | none =>
      simp only [List.foldl_cons, hadd]
      exact Or.inr (aggregate_fold_error l _)

theorem aggregate_receipts_error_inv (alloc : Nat) (receipts : List Receipt)
    (prev : Option ReceiptAggregateVoucher) (e : Error)
    (h : aggregate_receipts alloc receipts prev = Except.error e) :
    e = Error.RAVAggregationOverflow := by
  unfold aggregate_receipts at h
  cases prev with
  | none =>
    dsimp only at h
    rcases aggregate_fold_ok_or_overflow receipts 0 with ⟨v, hv⟩ | herr
    · rw [hv] at h
      cases h
    · rw [herr] at h
      cases h
      rfl
  | some p =>
    dsimp only at h
    rcases aggregate_fold_ok_or_overflow receipts p.value_aggregate with ⟨v, hv⟩ | herr
    · rw [hv] at h
      cases h
    · rw [herr] at h
      cases h
      rfl

theorem mem_eligible_map (m : Manager) (now buffer : Nat) (x : SignedReceipt) :
    x ∈ (m.receipts.filter (eligible m.rav now buffer)).map (·.receipt) ↔
      ((⟨x, RState.Reserved⟩ : StoredReceipt) ∈ m.receipts ∧
        x.message.timestamp_ns ≤ now - buffer ∧
        ∀ p, m.rav = some p → p.message.timestamp_ns_max < x.message.timestamp_ns) := by
  simp only [List.mem_map, List.mem_filter]
  constructor
  · rintro ⟨sr, ⟨hmem, helig⟩, rfl⟩
    unfold eligible at helig
    rw [Bool.and_eq_true, Bool.and_eq_true] at helig
    obtain ⟨⟨hst, hts⟩, hprev⟩ := helig
    have hst' : sr.state = RState.Reserved := by simpa using hst
    have hsr : sr = ⟨sr.receipt, RState.Reserved⟩ := by
      cases sr
      simp_all
    refine ⟨by rw [← hsr]; exact hmem, by simpa using hts, ?_⟩
    intro p hp
    rw [hp] at hprev
    simpa using hprev
  · rintro ⟨hmem, hts, hprev⟩
    refine ⟨⟨x, RState.Reserved⟩, ⟨hmem, ?_⟩, rfl⟩
    unfold eligible
    rw [Bool.and_eq_true, Bool.and_eq_true]
    refine ⟨⟨by simp, by simpa using hts⟩, ?_⟩
    cases hrav : m.rav with
    | none => rfl
    | some p => simpa using hprev p hrav

/-- Claim C5: `create_rav_request` succeeds with `valid_receipts` holding
exactly the `Reserved` receipts of the timestamp window — at least
`timestamp_buffer_ns` old and newer than the previous RAV when one
exists — ordered by timestamp ascending; and it fails with
`NoValidReceiptsForRAVRequest` exactly when that set is empty. -/
theorem tap_c5_create_rav_request (m : Manager) (now buffer : Nat) :
    (∀ req, create_rav_request m now buffer = Except.ok req →
      ((∀ x, x ∈ req.valid_receipts ↔
          ((⟨x, RState.Reserved⟩ : StoredReceipt) ∈ m.receipts ∧
            x.message.timestamp_ns ≤ now - buffer ∧
            ∀ p, m.rav = some p → p.message.timestamp_ns_max < x.message.timestamp_ns)) ∧
        req.valid_receipts.Pairwise
          (fun a b => a.message.timestamp_ns ≤ b.message.timestamp_ns))) ∧
    (create_rav_request m now buffer = Except.error Error.NoValidReceiptsForRAVRequest ↔
      ¬ ∃ x : SignedReceipt,
        ((⟨x, RState.Reserved⟩ : StoredReceipt) ∈ m.receipts ∧
          x.message.timestamp_ns ≤ now - buffer ∧
          ∀ p, m.rav = some p → p.message.timestamp_ns_max < x.message.timestamp_ns)) := by
  unfold create_rav_request
  dsimp only
  by_cases hemp :
      (sortByTs ((m.receipts.filter (eligible m.rav now buffer)).map (·.receipt))).isEmpty
  · rw [if_pos hemp]
    have hnil : (m.receipts.filter (eligible m.rav now buffer)).map (·.receipt) = [] :=
      (sortByTs_eq_nil_iff _).mp (List.isEmpty_iff.mp hemp)
    constructor
    · intro req hreq
      cases hreq
    · simp only [true_iff]
      rintro ⟨x, hx⟩
      have : x ∈ (m.receipts.filter (eligible m.rav now buffer)).map (·.receipt) :=
        (mem_eligible_map m now buffer x).mpr hx
      rw [hnil] at this
      cases this
  · rw [if_neg hemp]
    have hne : (m.receipts.filter (eligible m.rav now buffer)).map (·.receipt) ≠ [] := by
      intro hcon
      rw [← sortByTs_eq_nil_iff, ← List.isEmpty_iff] at hcon
      exact hemp hcon
    have hex : ∃ x : SignedReceipt,
        ((⟨x, RState.Reserved⟩ : StoredReceipt) ∈ m.receipts ∧
          x.message.timestamp_ns ≤ now - buffer ∧
          ∀ p, m.rav = some p → p.message.timestamp_ns_max < x.message.timestamp_ns) := by
      obtain ⟨x, hx⟩ := List.exists_mem_of_ne_nil _ hne
      exact ⟨x, (mem_eligible_map m now buffer x).mp hx⟩
    cases haggr : aggregate_receipts m.allocation_id
        ((sortByTs ((m.receipts.filter (eligible m.rav now buffer)).map (·.receipt))).map
          (·.message))
        (m.rav.map (·.message)) with
    | error e =>
      have he : e = Error.RAVAggregationOverflow :=
        aggregate_receipts_error_inv _ _ _ _ haggr
      constructor
      · intro req hreq
        cases hreq
      · constructor
        · intro hcon
          cases hcon
          cases he
        · intro hcon
          exact absurd hex hcon
    | ok expected =>
      constructor
      · intro req hreq
        cases hreq
        constructor
        · intro x
          rw [mem_sortByTs, mem_eligible_map]
        · exact sorted_sortByTs _
      · constructor
        · intro hcon
          cases hcon
        · intro hcon
          exact absurd hex hcon

/-- Manager with one `Reserved` receipt, used by the C5 witness. -/
def w5Manager : Manager :=
  { allocation_id := 1
    allocation_allowlist := [1]
    sender_allowlist := [5]
    aggregator_allowlist := [9]
    appraisals := [(0, 20)]
    escrow := [(5, 500)]
    receipts := [⟨w7Receipt, RState.Reserved⟩]
    rav := none
    watermark := 0 }

/-- The RAV request `create_rav_request` produces for `w5Manager`. -/
def w5Req : RAVRequest :=
  { valid_receipts := [w7Receipt]
    previous_rav := none
    invalid_receipts := []
    expected_rav :=
      { allocation_id := 1, timestamp_ns_max := 1000000000, value_aggregate := 20 } }

/-- Witness for C5: on the concrete one-receipt manager the request
succeeds with exactly that receipt as the valid list, and the
characterization and ordering follow by the theorem. -/
theorem tap_c5_witness :
    create_rav_request w5Manager 2000000000 0 = Except.ok w5Req ∧
      ((∀ x, x ∈ w5Req.valid_receipts ↔
          ((⟨x, RState.Reserved⟩ : StoredReceipt) ∈ w5Manager.receipts ∧
            x.message.timestamp_ns ≤ 2000000000 - 0 ∧
            ∀ p, w5Manager.rav = some p →
              p.message.timestamp_ns_max < x.message.timestamp_ns)) ∧
        w5Req.valid_receipts.Pairwise
          (fun a b => a.message.timestamp_ns ≤ b.message.timestamp_ns)) :=
  ⟨by decide,
   (tap_c5_create_rav_request w5Manager 2000000000 0).1 w5Req (by decide)⟩

theorem request_verified_count (agg : Aggregator) (now : Nat) (s : RpcState)
    (request_id : Nat) (r : SignedReceipt)
    (h : (request agg now s request_id r).verified = true) :
    (request agg now s request_id r).state.receipt_count =
      if s.threshold ≤ s.receipt_count + 1 then 0 else s.receipt_count + 1 := by
  unfold request at h ⊢
  dsimp only at h ⊢
  cases hv : (verify_and_store_receipt s.manager r request_id).1 with
  | error e =>
    rw [hv] at h
    simp at h
  | ok u =>
    dsimp only
    by_cases hth : s.threshold ≤ s.receipt_count + 1
    · rw [if_pos hth, if_pos hth]
      cases hrav : request_rav agg (verify_and_store_receipt s.manager r request_id).2 0 now <;>
        rfl
    · rw [if_neg hth, if_neg hth]

theorem request_step_spec (agg : Aggregator) (now : Nat) (s : RpcState)
    (request_id : Nat) (r : SignedReceipt)
    (hlt : s.receipt_count < s.threshold) :
    (request agg now s request_id r).state.threshold = s.threshold ∧
      (request agg now s request_id r).state.receipt_count < s.threshold ∧
      ((request agg now s request_id r).verified = false →
        (request agg now s request_id r).state.receipt_count = s.receipt_count ∧
        (request agg now s request_id r).triggered = false) ∧
      ((request agg now s request_id r).verified = true →
        (((request agg now s request_id r).triggered = true ↔
            s.receipt_count + 1 = s.threshold) ∧
          ((request agg now s request_id r).triggered = true →
            (request agg now s request_id r).state.receipt_count = 0) ∧
          ((request agg now s request_id r).triggered = false →
            (request agg now s request_id r).state.receipt_count = s.receipt_count + 1))) := by
  unfold request
  dsimp only
  cases hv : (verify_and_store_receipt s.manager r request_id).1 with
  | error e =>
    dsimp only
    exact ⟨rfl, hlt, fun _ => ⟨rfl, rfl⟩, fun hcon => by cases hcon⟩
  | ok u =>
    dsimp only
    by_cases hth : s.threshold ≤ s.receipt_count + 1
    · rw [if_pos hth]
      cases hrav : request_rav agg (verify_and_store_receipt s.manager r request_id).2 0 now with
      | ok m2 =>
        dsimp only
        refine ⟨rfl, by omega, ?_⟩
        constructor
        · intro hcon
          cases hcon
        · intro _
          exact ⟨⟨fun _ => by omega, fun _ => rfl⟩, fun _ => rfl, fun hcon => by cases hcon⟩
      | error e =>
        dsimp only
        refine ⟨rfl, by omega, ?_⟩
        constructor
        · intro hcon
          cases hcon
        · intro _
          exact ⟨⟨fun _ => by omega, fun _ => rfl⟩, fun _ => rfl, fun hcon => by cases hcon⟩
    · rw [if_neg hth]
      dsimp only
      refine ⟨rfl, by omega, ?_⟩
      constructor
      · intro hcon
        cases hcon
      · intro _
        refine ⟨?_, ?_, ?_⟩
        · constructor
          · intro hcon
            cases hcon
          · intro heq
            exact absurd heq (by omega)
        · intro hcon
          cases hcon
        · intro _
          rfl

theorem runRequests_counter_aux (agg : Aggregator) (now : Nat)
    (inputs : List (Nat × SignedReceipt)) :
    ∀ (s : RpcState), s.receipt_count < s.threshold →
      ∀ log ∈ (runRequests agg now s inputs).2,
        (log.ok = false → log.countAfter = log.countBefore ∧ log.triggered = false) ∧
        (log.ok = true →
          ((log.triggered = true ↔ log.countBefore + 1 = s.threshold) ∧
            (log.triggered = true → log.countAfter = 0) ∧
            (log.triggered = false → log.countAfter = log.countBefore + 1))) := by
  induction inputs with
  | nil =>
    intro s hlt log hlog
    cases hlog
  | cons p rest ih =>
    intro s hlt log hlog
    obtain ⟨id, r⟩ := p
    have hstep := request_step_spec agg now s id r hlt
    unfold runRequests at hlog
    dsimp only at hlog
    rcases List.mem_cons.mp hlog with rfl | htail
    · exact ⟨fun hok => hstep.2.2.1 hok, fun hok => hstep.2.2.2 hok⟩
    · have hlt2 : (request agg now s id r).state.receipt_count
          < (request agg now s id r).state.threshold := by
        rw [hstep.1]
        exact hstep.2.1
      have := ih (request agg now s id r).state hlt2 log htail
      rw [hstep.1] at this
      exact this

/-- Claim C4: over any sequence of RPC `request` calls starting from a zero
counter with a positive threshold, each call with a successful
`verify_and_store_receipt` increments the single process-wide counter by
exactly one while a failed one leaves it unchanged; a RAV request is
triggered exactly in the calls where the counter reaches the threshold,
and the counter is then reset to zero.  The counter's evolution depends
only on its previous value, the threshold, and verification success —
never on the receipt or its allocation (last conjunct). -/
theorem tap_c4_counter_threshold_discipline (agg : Aggregator) (now : Nat)
    (inputs : List (Nat × SignedReceipt)) (s : RpcState)
    (hcount : s.receipt_count = 0) (hthr : 1 ≤ s.threshold) :
    (∀ log ∈ (runRequests agg now s inputs).2,
      (log.ok = false → log.countAfter = log.countBefore ∧ log.triggered = false) ∧
      (log.ok = true →
        ((log.triggered = true ↔ log.countBefore + 1 = s.threshold) ∧
          (log.triggered = true → log.countAfter = 0) ∧
          (log.triggered = false → log.countAfter = log.countBefore + 1)))) ∧
    (∀ (s' : RpcState) (id1 id2 : Nat) (r1 r2 : SignedReceipt),
      (request agg now s' id1 r1).verified = true →
      (request agg now s' id2 r2).verified = true →
      (request agg now s' id1 r1).state.receipt_count
        = (request agg now s' id2 r2).state.receipt_count) := by
  constructor
  · exact runRequests_counter_aux agg now inputs s (by omega)
  · intro s' id1 id2 r1 r2 h1 h2
    rw [request_verified_count agg now s' id1 r1 h1,
      request_verified_count agg now s' id2 r2 h2]

/-- An honest aggregator oracle: answers exactly the section 3 aggregate
of the receipts and previous RAV it is handed, signed by the given
aggregator address (a degenerate zero RAV on aggregation overflow). -/
def honestAgg (alloc : Nat) (aggregatorAddr : Address) : Aggregator :=
  fun receipts prev =>
    match aggregate_receipts alloc (receipts.map (·.message))
        (prev.map SignedRAV.message) with
    | Except.ok rav => { message := rav, signer := aggregatorAddr }
    | Except.error _ =>
      { message := { allocation_id := alloc, timestamp_ns_max := 0, value_aggregate := 0 }
        signer := aggregatorAddr }

/-- Manager for the C4 witness: two appraised requests, escrow 520. -/
def w4Manager : Manager :=
  { allocation_id := 1
    allocation_allowlist := [1]
    sender_allowlist := [5]
    aggregator_allowlist := [9]
    appraisals := [(0, 20), (1, 30)]
    escrow := [(5, 520)]
    receipts := []
    rav := none
    watermark := 0 }

/-- Second receipt of the C4 witness run: value 30, timestamp one past
the first receipt's. -/
def w4R2 : SignedReceipt :=
  { message := { allocation_id := 1, timestamp_ns := 1000000001, nonce := 2, value := 30 }
    signer := 5 }

/-- Initial RPC service state of the C4 witness run: zero counter,
threshold 2. -/
def s4 : RpcState :=
  { manager := w4Manager, receipt_count := 0, threshold := 2 }

/-- The two ingest calls of the C4 witness run. -/
def w4Inputs : List (Nat × SignedReceipt) :=
  [(0, w7Receipt), (1, w4R2)]

/-- Witness for C4: a concrete two-call run with threshold 2 — the first
call increments the counter to 1 without triggering, the second reaches
the threshold, triggers the RAV request (served by the honest
aggregator), and resets the counter to 0 — and the counter discipline
follows by the theorem. -/
theorem tap_c4_witness :
    s4.receipt_count = 0 ∧ 1 ≤ s4.threshold ∧
      (runRequests (honestAgg 1 9) 2000000000 s4 w4Inputs).2 =
        [{ ok := true, triggered := false, countBefore := 0, countAfter := 1 },
         { ok := true, triggered := true, countBefore := 1, countAfter := 0 }] ∧
      ((∀ log ∈ (runRequests (honestAgg 1 9) 2000000000 s4 w4Inputs).2,
        (log.ok = false → log.countAfter = log.countBefore ∧ log.triggered = false) ∧
        (log.ok = true →
          ((log.triggered = true ↔ log.countBefore + 1 = s4.threshold) ∧
            (log.triggered = true → log.countAfter = 0) ∧
            (log.triggered = false → log.countAfter = log.countBefore + 1)))) ∧
      (∀ (s' : RpcState) (id1 id2 : Nat) (r1 r2 : SignedReceipt),
        (request (honestAgg 1 9) 2000000000 s' id1 r1).verified = true →
        (request (honestAgg 1 9) 2000000000 s' id2 r2).verified = true →
        (request (honestAgg 1 9) 2000000000 s' id1 r1).state.receipt_count
          = (request (honestAgg 1 9) 2000000000 s' id2 r2).state.receipt_count)) :=
  ⟨rfl, by decide, by decide,
   tap_c4_counter_threshold_discipline (honestAgg 1 9) 2000000000 w4Inputs s4 rfl
     (by decide)⟩

/-- Claim C10: when a successful ingest crosses the threshold and the triggered
RAV request then fails, the `request` RPC method returns the error even
though the receipt was already verified and stored (it sits `Reserved` in
the manager that the service keeps), and the counter has already been
reset to zero, so the receipts counted before the failure do not count
toward the next trigger. -/
theorem tap_c10_rav_failure_after_trigger (agg : Aggregator) (now : Nat)
    (s : RpcState) (request_id : Nat) (r : SignedReceipt) (e : Error)
    (hok : (verify_and_store_receipt s.manager r request_id).1 = Except.ok ())
    (hth : s.threshold ≤ s.receipt_count + 1)
    (hrav : request_rav agg (verify_and_store_receipt s.manager r request_id).2 0 now
      = Except.error e) :
    (request agg now s request_id r).result = Except.error e ∧
      (request agg now s request_id r).triggered = true ∧
      (request agg now s request_id r).state.receipt_count = 0 ∧
      (request agg now s request_id r).state.manager
        = (verify_and_store_receipt s.manager r request_id).2 ∧
      ⟨r, RState.Reserved⟩ ∈ (request agg now s request_id r).state.manager.receipts := by
  obtain ⟨hc, hbal, hm⟩ := verify_ok_inv s.manager r request_id hok
  unfold request
  dsimp only
  rw [hok]
  dsimp only
  rw [if_pos hth, hrav]
  dsimp only
  refine ⟨rfl, rfl, rfl, rfl, ?_⟩
  rw [hm]
  exact List.mem_cons_self _ _

/-- A tampering aggregator: always answers a RAV of value 21 for
allocation 1, signed by the allow-listed aggregator 9. -/
def w10Agg : Aggregator := fun _ _ =>
  { message := { allocation_id := 1, timestamp_ns_max := 1000000000, value_aggregate := 21 }
    signer := 9 }

/-- Initial RPC service state of the C10 witness: threshold 1, so the
first successful ingest triggers a RAV request. -/
def w10State : RpcState :=
  { manager := w8Manager, receipt_count := 0, threshold := 1 }

/-- Witness for C10: with threshold 1 and the tampering aggregator, the
single ingest verifies and stores the receipt, triggers the RAV request,
which fails with `InvalidReceivedRAV`; the call returns that error with
the receipt `Reserved` and the counter reset to 0. -/
theorem tap_c10_witness :
    (verify_and_store_receipt w10State.manager w7Receipt 0).1 = Except.ok () ∧
      w10State.threshold ≤ w10State.receipt_count + 1 ∧
      request_rav w10Agg (verify_and_store_receipt w10State.manager w7Receipt 0).2 0 2000000000
        = Except.error Error.InvalidReceivedRAV ∧
      ((request w10Agg 2000000000 w10State 0 w7Receipt).result
          = Except.error Error.InvalidReceivedRAV ∧
        (request w10Agg 2000000000 w10State 0 w7Receipt).triggered = true ∧
        (request w10Agg 2000000000 w10State 0 w7Receipt).state.receipt_count = 0 ∧
        (request w10Agg 2000000000 w10State 0 w7Receipt).state.manager
          = (verify_and_store_receipt w10State.manager w7Receipt 0).2 ∧
        ⟨w7Receipt, RState.Reserved⟩
          ∈ (request w10Agg 2000000000 w10State 0 w7Receipt).state.manager.receipts) :=
  ⟨by decide, by decide, by decide,
   tap_c10_rav_failure_after_trigger w10Agg 2000000000 w10State 0 w7Receipt
     Error.InvalidReceivedRAV (by decide) (by decide) (by decide)⟩

/-- Previous RAV of the C1 scenario: allocation 1, window up to 50,
value 20. -/
def c1PrevRav : SignedRAV :=
  { message := { allocation_id := 1, timestamp_ns_max := 50, value_aggregate := 20 }
    signer := 9 }

/-- Reserved receipt of the C1 scenario, newer than the previous RAV. -/
def c1Receipt : SignedReceipt :=
  { message := { allocation_id := 1, timestamp_ns := 100, nonce := 2, value := 30 }
    signer := 5 }

/-- Manager of the C1 scenario: one prior RAV stored and one newer
`Reserved` receipt. -/
def c1Manager : Manager :=
  { allocation_id := 1
    allocation_allowlist := [1]
    sender_allowlist := [5]
    aggregator_allowlist := [9]
    appraisals := [(0, 30)]
    escrow := [(5, 470)]
    receipts := [⟨c1Receipt, RState.Reserved⟩]
    rav := some c1PrevRav
    watermark := 50 }

/-- The RAV request `create_rav_request` produces in the C1 scenario (a
fallback empty request in the unreachable error case). -/
def c1Req : RAVRequest :=
  match create_rav_request c1Manager 200 0 with
  | Except.ok req => req
  | Except.error _ =>
    { valid_receipts := []
      previous_rav := none
      invalid_receipts := []
      expected_rav := { allocation_id := 0, timestamp_ns_max := 0, value_aggregate := 0 } }

/-- Claim C1: evidence that the RPC service does not forward the previous RAV.
With a prior RAV stored, `create_rav_request` returns it in the
request's `previous_rav` field, but the parameters the service sends to
`aggregate_receipts` (server.rs line 169) carry `none` instead; as a
consequence, even the honest aggregator's answer (computed without the
prior RAV) mismatches the locally expected RAV and the whole RAV round
trip fails with `InvalidReceivedRAV`, while the same flow forwarding
`previous_rav` as the spec prescribes succeeds. -/
theorem tap_c1_previous_rav_not_forwarded :
    c1Manager.rav = some c1PrevRav ∧
      create_rav_request c1Manager 200 0 = Except.ok c1Req ∧
      c1Req.previous_rav = some c1PrevRav ∧
      (request_rav_params c1Req).2 = none ∧
      request_rav (honestAgg 1 9) c1Manager 0 200
        = Except.error Error.InvalidReceivedRAV ∧
      request_rav_spec (honestAgg 1 9) c1Manager 0 200
        = Except.ok
          { c1Manager with
            rav := some
              { message :=
                  { allocation_id := 1, timestamp_ns_max := 100, value_aggregate := 50 }
                signer := 9 }
            watermark := 100
            receipts := [] } := by
  decide

end TAP
